import Mathlib

/-!
Shallow embedding of `src/heic_converter.c` (a batch HEIC-to-JPEG converter).

Strings are modelled as `List Char`. Calls into the external libraries
(libheif, libjpeg, POSIX) are modelled by an environment oracle that fixes the
outcome of each fallible call, exactly at the points where the C code checks an
outcome; calls whose result the C code does not (and cannot) check — the libjpeg
encoding calls run under `jpeg_std_error`, which aborts the process instead of
returning — are modelled as infallible.  Every run produces a trace of
`ConvAction`s recording the library calls, file operations, resource releases and
`stderr` writes, in program order.  Each `printf`/`fprintf` call is one trace
element, without the trailing `"\n"` of the C format string; the
`strerror(errno)` suffix of the opendir diagnostic is elided.
-/

/-- Result of `stat` as far as the program can observe it: whether the call
succeeded, and the type of the file system entry it found (which
`ensure_directory` never inspects). -/
inductive FileType where
  | directory
  | regular
  | other
  deriving DecidableEq, Repr

/-- Oracle for the two POSIX calls made by `ensure_directory`. -/
structure StatEnv where
  statOk : Bool
  ftype : FileType
  mkdirOk : Bool
  deriving DecidableEq, Repr

/-- Trace element for `ensure_directory`. -/
inductive DirAction where
  | statCall (path : List Char)
  | mkdirCall (path : List Char) (mode : Nat)
  deriving DecidableEq, Repr

/-- Oracle for one `convert_heic_to_jpg` job: the outcome of each fallible
library call, in the order the C code checks them, plus the decoded image
height (the number of scanlines the encode loop writes). -/
structure ConvEnv where
  allocOk : Bool
  readOk : Bool
  handleOk : Bool
  decodeOk : Bool
  openOk : Bool
  height : Nat
  deriving DecidableEq, Repr

/-- Trace element for one conversion job. -/
inductive ConvAction where
  | createCompress
  | allocCtx
  | readContainer (path : List Char)
  | getPrimaryHandle
  | decodeImage
  | openOutput (path : List Char)
  | setQuality (q : Int)
  | writeScanline (row : Nat)
  | finishCompress
  | logErr (msg : List Char)
  | closeOutput
  | releaseImg
  | releaseHandle
  | freeCtx
  | destroyCompress
  deriving DecidableEq, Repr

/-- The `ConversionContext` struct at cleanup time: which of the four
pointer-valued members are non-NULL.  The libjpeg compress state (`cinfo`) is
not a pointer and is always initialized before the first failure point, so it
has no flag. -/
structure ConversionContext where
  ctx : Bool
  handle : Bool
  img : Bool
  outfile : Bool
  deriving DecidableEq, Repr

/-- Embedding of `cleanup_context` (src lines 47-71): close the output file,
release the image, the handle and the context — each only if non-NULL — and
unconditionally destroy the compress state, in that order. -/
def cleanup_context (c : ConversionContext) : List ConvAction :=
  (if c.outfile then [ConvAction.closeOutput] else []) ++
  (if c.img then [ConvAction.releaseImg] else []) ++
  (if c.handle then [ConvAction.releaseHandle] else []) ++
  (if c.ctx then [ConvAction.freeCtx] else []) ++
  [ConvAction.destroyCompress]

/-- Index of the last occurrence of `c` in the list, if any
(the embedding of `strrchr`, returning an index instead of a pointer). -/
def lastIdx (c : Char) : List Char → Option Nat
  | [] => none
  | x :: xs =>
    match lastIdx c xs with
    | some i => some (i + 1)
    | none => if x = c then some 0 else none

/-- Case-insensitive string equality, the embedding of `strcasecmp(a,b) == 0`. -/
def strcasecmp_eq (a b : List Char) : Bool :=
  a.map Char.toLower = b.map Char.toLower

/-- Embedding of `has_heic_extension` (src lines 35-39): find the last `'.'`;
if none, reject; otherwise compare the suffix starting at the dot with
`".HEIC"` case-insensitively. -/
def has_heic_extension (filename : List Char) : Bool :=
  match lastIdx '.' filename with
  | none => false
  | some i => strcasecmp_eq (filename.drop i) (".HEIC".toList)

/-- Embedding of `ensure_directory` (src lines 41-45): if `stat` succeeds
return 1 (whatever the entry is); otherwise return whether
`mkdir(path, 0755)` succeeded. -/
def ensure_directory (env : StatEnv) (path : List Char) : Bool × List DirAction :=
  if env.statOk then (true, [DirAction.statCall path])
  else (env.mkdirOk, [DirAction.statCall path, DirAction.mkdirCall path 0o755])

/-- The `base_name` computation of src lines 113-114: the suffix after the
last `'/'`, or the whole path if it has none. -/
def base_name_of (input_path : List Char) : List Char :=
  match lastIdx '/' input_path with
  | some i => input_path.drop (i + 1)
  | none => input_path

/-- The `snprintf` of src lines 116-117: `"%s/%.*s.jpg"` where the precision is
`strrchr(base_name, '.') - base_name`.  When the basename has no dot the C
expression subtracts from a NULL pointer (undefined behavior), modelled as
`none`. -/
def output_filename (input_path output_dir : List Char) : Option (List Char) :=
  let base := base_name_of input_path
  match lastIdx '.' base with
  | none => none
  | some i => some (output_dir ++ '/' :: (base.take i ++ ".jpg".toList))

/-- The scanline loop of src lines 137-140: one `jpeg_write_scanlines` call per
row, top to bottom. -/
def scanlines (height : Nat) : List ConvAction :=
  (List.range height).map ConvAction.writeScanline

/-- Embedding of `convert_heic_to_jpg` (src lines 73-148).  Returns the C
`int` result (1 on success, 0 on failure) together with the action trace, or
`none` when the run reaches the undefined `strrchr(base_name,'.') - base_name`
with a dotless basename.  Each failing check logs its message and jumps to
`cleanup_context` with exactly the members acquired so far non-NULL. -/
def convert_heic_to_jpg (env : ConvEnv) (input_path output_dir : List Char)
    (jpeg_quality : Int) : Option (Nat × List ConvAction) :=
  let pre := [ConvAction.createCompress, ConvAction.allocCtx]
  if !env.allocOk then
    some (0, pre ++ [ConvAction.logErr ("Failed to allocate HEIF context".toList)] ++
      cleanup_context ⟨false, false, false, false⟩)
  else
  let t1 := pre ++ [ConvAction.readContainer input_path]
  if !env.readOk then
    some (0, t1 ++ [ConvAction.logErr ("Could not read HEIC file: ".toList ++ input_path)] ++
      cleanup_context ⟨true, false, false, false⟩)
  else
  let t2 := t1 ++ [ConvAction.getPrimaryHandle]
  if !env.handleOk then
    some (0, t2 ++ [ConvAction.logErr ("Could not get primary image handle".toList)] ++
      cleanup_context ⟨true, false, false, false⟩)
  else
  let t3 := t2 ++ [ConvAction.decodeImage]
  if !env.decodeOk then
    some (0, t3 ++ [ConvAction.logErr ("Could not decode image".toList)] ++
      cleanup_context ⟨true, true, false, false⟩)
  else
  match output_filename input_path output_dir with
  | none => none
  | some outName =>
    let t4 := t3 ++ [ConvAction.openOutput outName]
    if !env.openOk then
      some (0, t4 ++ [ConvAction.logErr ("Could not create output file: ".toList ++ outName)] ++
        cleanup_context ⟨true, true, true, false⟩)
    else
      some (1, t4 ++ [ConvAction.setQuality jpeg_quality] ++ scanlines env.height ++
        [ConvAction.finishCompress] ++ cleanup_context ⟨true, true, true, true⟩)

/-- The `stderr` lines of a conversion trace, in order. -/
def errLines (t : List ConvAction) : List (List Char) :=
  t.filterMap fun a =>
    match a with
    | ConvAction.logErr m => some m
    | _ => none

/-- Position of an action in the step sequence of the conversion procedure
(context allocation, container read, handle lookup, decode, output open,
scanline encoding, finish-compress); `none` for non-step actions. -/
def stepRank : ConvAction → Option Nat
  | ConvAction.allocCtx => some 0
  | ConvAction.readContainer _ => some 1
  | ConvAction.getPrimaryHandle => some 2
  | ConvAction.decodeImage => some 3
  | ConvAction.openOutput _ => some 4
  | ConvAction.writeScanline _ => some 5
  | ConvAction.finishCompress => some 6
  | _ => none

/-- Ranks of the step actions occurring in a trace, in order. -/
def ranksOf (t : List ConvAction) : List Nat :=
  t.filterMap stepRank

/-- The first step of `convert_heic_to_jpg` that fails under `env`, if any.
The two libjpeg encoding steps (ranks 5 and 6) never fail in the embedding,
because the C code gives them no failure path (`jpeg_std_error` aborts the
process instead of returning). -/
def firstFailure (env : ConvEnv) : Option Nat :=
  if !env.allocOk then some 0
  else if !env.readOk then some 1
  else if !env.handleOk then some 2
  else if !env.decodeOk then some 3
  else if !env.openOk then some 4
  else none

/-- The five releasable resources of one conversion job. -/
inductive Resource where
  | cinfo
  | hctx
  | handle
  | img
  | outfile
  deriving DecidableEq, Repr, Fintype

/-- The resource released by an action, if it is a release action. -/
def releaseOf : ConvAction → Option Resource
  | ConvAction.destroyCompress => some Resource.cinfo
  | ConvAction.freeCtx => some Resource.hctx
  | ConvAction.releaseHandle => some Resource.handle
  | ConvAction.releaseImg => some Resource.img
  | ConvAction.closeOutput => some Resource.outfile
  | _ => none

/-- The resources a conversion run acquires under `env`, in acquisition order:
the compress state is always created first; each later resource is acquired
exactly when every call up to and including its own succeeds. -/
def acquiredResources (env : ConvEnv) : List Resource :=
  [Resource.cinfo] ++
  (if env.allocOk then [Resource.hctx] else []) ++
  (if env.allocOk && env.readOk && env.handleOk then [Resource.handle] else []) ++
  (if env.allocOk && env.readOk && env.handleOk && env.decodeOk then [Resource.img] else []) ++
  (if env.allocOk && env.readOk && env.handleOk && env.decodeOk && env.openOk
    then [Resource.outfile] else [])

/-- Decidable sublist-containment test: `pat` occurs contiguously in `s`. -/
def containsSub (pat s : List Char) : Bool :=
  (List.range (s.length + 1)).any fun i => pat.isPrefixOf (s.drop i)

/-- The fixed input directory of `main` (src line 151). -/
def input_dir : List Char := "Photos".toList

/-- The fixed output directory of `main` (src line 152). -/
def output_dir : List Char := "output".toList

/-- The quality check of src line 161: `scanf` parsed an integer and it lies
in `[1, 100]`. -/
def quality_valid (q : Int) : Bool :=
  1 ≤ q && q ≤ 100

/-- Oracle for one run of `main`: the parsed quality (or `none` when `scanf`
does not return 1), the `stat`/`mkdir` outcomes for the output directory, the
`opendir` outcome, the `readdir` entry names in the order the OS yields them,
a `ConvEnv` for each entry, and the `closedir` outcome. -/
structure MainEnv where
  qualityInput : Option Int
  outDirStat : StatEnv
  opendirOk : Bool
  entries : List (List Char)
  convEnv : List Char → ConvEnv
  closedirOk : Bool

/-- Observable outcome of one run of `main`: the process exit status, the
`stdout` and `stderr` writes in order, whether `opendir` was called, whether
the `readdir` loop ran, the input paths passed to `convert_heic_to_jpg` in
order, and the final `files_processed` counter. -/
structure MainResult where
  exitCode : Nat
  stdout : List (List Char)
  stderr : List (List Char)
  opendirCalled : Bool
  dirScanned : Bool
  convCalls : List (List Char)
  filesProcessed : Nat
  deriving DecidableEq, Repr

/-- The `readdir` loop of src lines 179-186: filter each entry through
`has_heic_extension`, build `"Photos/<name>"`, convert it, and accumulate the
success count, the converter calls, and the converter `stderr` lines.
Propagates the `none` of a conversion that hits undefined behavior. -/
def run_jobs (ce : List Char → ConvEnv) (q : Int) :
    List (List Char) → Option (Nat × List (List Char) × List (List Char))
  | [] => some (0, [], [])
  | name :: rest =>
    if has_heic_extension name then
      match convert_heic_to_jpg (ce name) (input_dir ++ '/' :: name) output_dir q with
      | none => none
      | some (r, t) =>
        match run_jobs ce q rest with
        | none => none
        | some (n, calls, errs) =>
          some (r + n, (input_dir ++ '/' :: name) :: calls, errLines t ++ errs)
    else run_jobs ce q rest

/-- The interactive prompt of src line 160. -/
def promptMsg : List Char := "Enter JPEG quality (1-100, recommended 75-95): ".toList

/-- The diagnostic of src line 162. -/
def invalidQualityMsg : List Char :=
  "Invalid quality value. Please enter a number between 1 and 100.".toList

/-- The confirmation line of src line 165, with the parsed quality. -/
def usingQualityMsg (q : Int) : List Char :=
  ("Using JPEG quality: " ++ toString q).toList

/-- The diagnostic of src line 168. -/
def mkdirFailMsg : List Char := "Failed to create output directory".toList

/-- The diagnostic of src line 173, with the `strerror` suffix elided. -/
def opendirFailMsg : List Char := "Could not open Photos directory".toList

/-- The progress line of src line 177. -/
def convertingMsg : List Char := "Converting files...".toList

/-- The summary line of src line 193. -/
def noHeicMsg : List Char := "No HEIC files found in the Photos directory.".toList

/-- The summary line of src line 195, with the `files_processed` count. -/
def convertedMsg (n : Nat) : List Char :=
  ("Successfully converted " ++ toString n ++ " photos to JPEG format.").toList

/-- Embedding of the C `main` (src lines 150-199), named `mainRun` because Lean reserves `main` for an executable entry point.  Invalid quality, `mkdir` failure
and `opendir` failure each print a diagnostic and exit 1; otherwise the
`readdir` loop runs, the summary is printed (`noHeicMsg` when
`files_processed == 0`, else `convertedMsg`), and the exit status is
`!success` where `success` is 1 exactly when `closedir` returned 0.  `none`
propagates a conversion that hits undefined behavior. -/
def mainRun (env : MainEnv) : Option MainResult :=
  match env.qualityInput with
  | none => some ⟨1, [promptMsg], [invalidQualityMsg], false, false, [], 0⟩
  | some q =>
    if !quality_valid q then
      some ⟨1, [promptMsg], [invalidQualityMsg], false, false, [], 0⟩
    else
      let out1 := [promptMsg, usingQualityMsg q]
      if !(ensure_directory env.outDirStat output_dir).1 then
        some ⟨1, out1, [mkdirFailMsg], false, false, [], 0⟩
      else if !env.opendirOk then
        some ⟨1, out1, [opendirFailMsg], true, false, [], 0⟩
      else
        match run_jobs env.convEnv q env.entries with
        | none => none
        | some (n, calls, errs) =>
          let summary := if n = 0 then noHeicMsg else convertedMsg n
          some ⟨if env.closedirOk then 0 else 1,
                out1 ++ [convertingMsg, summary], errs, true, true, calls, n⟩

/-- Whether the conversion job for directory entry `name` returns success
under `ce` and quality `q` (the condition under which the loop increments
`files_processed`). -/
def convOk (ce : List Char → ConvEnv) (q : Int) (name : List Char) : Bool :=
  match convert_heic_to_jpg (ce name) (input_dir ++ '/' :: name) output_dir q with
  | some (1, _) => true
  | _ => false

/-! ### Helper lemmas -/

theorem lastIdx_eq_none_iff (c : Char) (l : List Char) : lastIdx c l = none ↔ c ∉ l := by
  induction l with
  | nil => simp [lastIdx]
  | cons x xs ih =>
    rw [lastIdx]
    cases h : lastIdx c xs with
    | some i =>
      have hc : c ∈ xs := by
        by_contra hc
        rw [← ih] at hc
        simp [h] at hc
      simp [hc]
    | none =>
      have hc : c ∉ xs := ih.mp h
      by_cases hx : x = c
      · subst hx
        simp
      · simp [hx, hc, Ne.symm hx]

theorem lastIdx_append_cons (c : Char) (s t : List Char) (ht : c ∉ t) :
    lastIdx c (s ++ c :: t) = some s.length := by
  induction s with
  | nil =>
    rw [List.nil_append, lastIdx, (lastIdx_eq_none_iff c t).mpr ht]
    simp
  | cons x s ih =>
    rw [List.cons_append, lastIdx, ih]
    simp

theorem lastIdx_some_decomp (c : Char) (l : List Char) (i : Nat)
    (h : lastIdx c l = some i) :
    ∃ s t, l = s ++ c :: t ∧ s.length = i ∧ c ∉ t := by
  induction l generalizing i with
  | nil => simp [lastIdx] at h
  | cons x xs ih =>
    rw [lastIdx] at h
    cases hx : lastIdx c xs with
    | some j =>
      rw [hx] at h
      obtain ⟨s, t, hst, hlen, hnt⟩ := ih j hx
      refine ⟨x :: s, t, ?_, ?_, hnt⟩
      · rw [hst, List.cons_append]
      · simp only [List.length_cons, hlen]
        simpa using h
    | none =>
      rw [hx] at h
      by_cases hxc : x = c
      · subst hxc
        simp at h
        exact ⟨[], xs, rfl, by simpa using h, (lastIdx_eq_none_iff x xs).mp hx⟩
      · simp [hxc] at h

theorem base_name_of_append (d b : List Char) (hb : '/' ∉ b) :
    base_name_of (d ++ '/' :: b) = b := by
  rw [base_name_of, lastIdx_append_cons '/' d b hb]
  have h2 : d ++ '/' :: b = (d ++ ['/']) ++ b := by simp
  rw [h2]
  show List.drop (d.length + 1) ((d ++ ['/']) ++ b) = b
  have hlen : d.length + 1 = (d ++ ['/']).length := by simp
  rw [hlen, List.drop_left]

theorem conv_result_cases (env : ConvEnv) (ip od : List Char) (q : Int)
    (r : Nat) (t : List ConvAction)
    (h : convert_heic_to_jpg env ip od q = some (r, t)) : r = 0 ∨ r = 1 := by
  obtain ⟨a, rd, hd, de, op, ht⟩ := env
  cases a <;> cases rd <;> cases hd <;> cases de <;> cases op <;>
    cases ho : output_filename ip od <;>
      simp_all [convert_heic_to_jpg]

theorem convOk_iff (ce : List Char → ConvEnv) (q : Int) (name : List Char)
    (r : Nat) (t : List ConvAction)
    (h : convert_heic_to_jpg (ce name) (input_dir ++ '/' :: name) output_dir q = some (r, t)) :
    convOk ce q name = true ↔ r = 1 := by
  rw [convOk, h]
  rcases conv_result_cases _ _ _ _ _ _ h with h0 | h1 <;> subst_vars <;> simp

theorem run_jobs_spec (ce : List Char → ConvEnv) (q : Int) (names : List (List Char))
    (n : Nat) (calls errs : List (List Char))
    (h : run_jobs ce q names = some (n, calls, errs)) :
    n = (names.filter has_heic_extension).countP (convOk ce q) ∧
    calls = (names.filter has_heic_extension).map (fun nm => input_dir ++ '/' :: nm) := by
  induction names generalizing n calls errs with
  | nil =>
    simp [run_jobs] at h
    simp [h.1, h.2.1]
  | cons name rest ih =>
    rw [run_jobs] at h
    by_cases hx : has_heic_extension name = true
    · rw [if_pos hx] at h
      cases hc : convert_heic_to_jpg (ce name) (input_dir ++ '/' :: name) output_dir q with
      | none => rw [hc] at h; simp at h
      | some p =>
        obtain ⟨r, t⟩ := p
        rw [hc] at h
        cases hr : run_jobs ce q rest with
        | none => rw [hr] at h; simp at h
        | some p2 =>
          obtain ⟨n2, calls2, errs2⟩ := p2
          rw [hr] at h
          simp only [Option.some.injEq, Prod.mk.injEq] at h
          obtain ⟨hn, hcalls, -⟩ := h
          obtain ⟨ihn, ihcalls⟩ := ih n2 calls2 errs2 hr
          constructor
          · rw [← hn, List.filter_cons_of_pos hx, List.countP_cons, ← ihn]
            rcases (convOk_iff ce q name r t hc) with hiff
            rcases conv_result_cases _ _ _ _ _ _ hc with h0 | h1
            · subst h0
              have hno : ¬ convOk ce q name = true := by
                intro hh
                exact absurd (hiff.mp hh) (by decide)
              rw [if_neg hno]
              omega
            · subst h1
              rw [if_pos (hiff.mpr rfl)]
              omega
          · rw [← hcalls, List.filter_cons_of_pos hx, List.map_cons, ihcalls]
    · rw [if_neg hx] at h
      rw [List.filter_cons_of_neg hx]
      exact ih n calls errs h

theorem strcasecmp_eq_true_iff (a b : List Char) :
    strcasecmp_eq a b = true ↔ a.map Char.toLower = b.map Char.toLower := by
  simp [strcasecmp_eq]

theorem heic_char (name : List Char) :
    has_heic_extension name = true ↔
      ∃ s t, name = s ++ '.' :: t ∧ '.' ∉ t ∧ t.map Char.toLower = "heic".toList := by
  constructor
  · intro h
    rw [has_heic_extension] at h
    cases hL : lastIdx '.' name with
    | none => rw [hL] at h; simp at h
    | some i =>
      rw [hL] at h
      obtain ⟨s, t, hst, hlen, hnt⟩ := lastIdx_some_decomp '.' name i hL
      refine ⟨s, t, hst, hnt, ?_⟩
      subst hst
      rw [← hlen] at h
      have h2 : strcasecmp_eq (List.drop s.length (s ++ '.' :: t)) (".HEIC".toList) = true := h
      have hdrop : List.drop s.length (s ++ '.' :: t) = '.' :: t := List.drop_left s ('.' :: t)
      rw [hdrop, strcasecmp_eq_true_iff, List.map_cons] at h2
      have hHEIC : (".HEIC".toList.map Char.toLower) = '.' :: "heic".toList := by decide
      rw [hHEIC] at h2
      simpa using h2
  · rintro ⟨s, t, rfl, hnt, hmap⟩
    rw [has_heic_extension, lastIdx_append_cons '.' s t hnt]
    show strcasecmp_eq (List.drop s.length (s ++ '.' :: t)) (".HEIC".toList) = true
    have hdrop : List.drop s.length (s ++ '.' :: t) = '.' :: t := List.drop_left s ('.' :: t)
    rw [hdrop, strcasecmp_eq_true_iff, List.map_cons]
    have hHEIC : (".HEIC".toList.map Char.toLower) = '.' :: "heic".toList := by decide
    rw [hHEIC, hmap]
    decide

theorem containsSub_append_left (pat pre : List Char) :
    containsSub pat (pre ++ pat) = true := by
  rw [containsSub, List.any_eq_true]
  refine ⟨pre.length, ?_, ?_⟩
  · rw [List.mem_range, List.length_append]
    omega
  · rw [List.drop_left]
    simp [List.isPrefixOf_iff_prefix]

/-! ### Concrete data used by witnesses -/

/-- A conversion environment in which every library call succeeds. -/
def allOkEnv : ConvEnv := ⟨true, true, true, true, true, 1⟩

/-- A per-entry oracle assigning the all-success environment to every entry. -/
def allOk : List Char → ConvEnv := fun _ => allOkEnv

/-- The directory listing of the spec's selection example. -/
def demoEntries : List (List Char) := ["a.HEIC".toList, "b.heic".toList, "c.txt".toList]

/-! ### Claim theorems -/

/-- C5: `has_heic_extension` accepts exactly the names that end, after their
last dot, in a case-insensitive `HEIC` extension; the `readdir` loop passes to
`convert_heic_to_jpg` exactly the matching entries (prefixed with
`"Photos/"`); and on the listing `a.HEIC`, `b.heic`, `c.txt` exactly the first
two match. -/
theorem heic_filter_selects_exactly (ce : List Char → ConvEnv) (q : Int)
    (names : List (List Char)) (n : Nat) (calls errs : List (List Char))
    (h : run_jobs ce q names = some (n, calls, errs)) :
    (∀ name : List Char, has_heic_extension name = true ↔
      ∃ s t, name = s ++ '.' :: t ∧ '.' ∉ t ∧ t.map Char.toLower = "heic".toList) ∧
    calls = (names.filter has_heic_extension).map (fun nm => input_dir ++ '/' :: nm) ∧
    demoEntries.filter has_heic_extension = ["a.HEIC".toList, "b.heic".toList] := by
  exact ⟨heic_char, (run_jobs_spec ce q names n calls errs h).2, by decide⟩

/-- Witness for C5 at a concrete directory listing. -/
theorem heic_filter_selects_exactly_witness :
    run_jobs allOk 85 demoEntries
      = some (2, ["Photos/a.HEIC".toList, "Photos/b.heic".toList], ([] : List (List Char))) ∧
    ((∀ name : List Char, has_heic_extension name = true ↔
      ∃ s t, name = s ++ '.' :: t ∧ '.' ∉ t ∧ t.map Char.toLower = "heic".toList) ∧
    ["Photos/a.HEIC".toList, "Photos/b.heic".toList]
      = (demoEntries.filter has_heic_extension).map (fun nm => input_dir ++ '/' :: nm) ∧
    demoEntries.filter has_heic_extension = ["a.HEIC".toList, "b.heic".toList]) :=
  ⟨by decide, heic_filter_selects_exactly allOk 85 demoEntries 2
    ["Photos/a.HEIC".toList, "Photos/b.heic".toList] ([] : List (List Char)) (by decide)⟩

/-- C6: when the basename of the input path contains a dot — written as
`base_name_of ip = s ++ '.' :: t` with no dot in `t`, so the dot shown is the
last one — the derived output path is `output_dir`, a slash, the basename with
everything from its last dot stripped, then `".jpg"`. -/
theorem output_filename_strips_extension (ip od s t : List Char)
    (hb : base_name_of ip = s ++ '.' :: t) (ht : '.' ∉ t) :
    output_filename ip od = some (od ++ '/' :: (s ++ ".jpg".toList)) := by
  simp only [output_filename]
  rw [hb, lastIdx_append_cons '.' s t ht]
  show some (od ++ '/' :: ((s ++ '.' :: t).take s.length ++ ".jpg".toList))
    = some (od ++ '/' :: (s ++ ".jpg".toList))
  rw [List.take_left]

/-- Witness for C6 at the spec's end-to-end example path. -/
theorem output_filename_strips_extension_witness :
    base_name_of "Photos/IMG_0001.HEIC".toList = "IMG_0001".toList ++ '.' :: "HEIC".toList ∧
    '.' ∉ "HEIC".toList ∧
    output_filename "Photos/IMG_0001.HEIC".toList "output".toList
      = some ("output".toList ++ '/' :: ("IMG_0001".toList ++ ".jpg".toList)) :=
  ⟨by decide, by decide,
    output_filename_strips_extension "Photos/IMG_0001.HEIC".toList "output".toList
      "IMG_0001".toList "HEIC".toList (by decide) (by decide)⟩

/-- C8: every name accepted by `has_heic_extension` contains a dot, and since
`readdir` entry names contain no `'/'`, the basename of the driver-built path
`"Photos/" ++ name` is `name` itself, its last-dot lookup succeeds (so the C
pointer subtraction is on two pointers into the basename, hence well-defined,
and the resulting index is a `Nat`, hence non-negative), and the output
filename derivation is defined. -/
theorem accepted_names_have_dot (name od : List Char)
    (h : has_heic_extension name = true) :
    '.' ∈ name ∧
    ('/' ∉ name →
      base_name_of (input_dir ++ '/' :: name) = name ∧
      (lastIdx '.' (base_name_of (input_dir ++ '/' :: name))).isSome = true ∧
      (output_filename (input_dir ++ '/' :: name) od).isSome = true) := by
  have hdot : '.' ∈ name := by
    by_contra hc
    rw [← lastIdx_eq_none_iff] at hc
    rw [has_heic_extension, hc] at h
    simp at h
  refine ⟨hdot, fun hs => ?_⟩
  have hb := base_name_of_append input_dir name hs
  refine ⟨hb, ?_, ?_⟩
  · rw [hb]
    cases hL : lastIdx '.' name with
    | none => exact absurd hdot ((lastIdx_eq_none_iff '.' name).mp hL)
    | some i => rfl
  · simp only [output_filename]
    rw [hb]
    cases hL : lastIdx '.' name with
    | none => exact absurd hdot ((lastIdx_eq_none_iff '.' name).mp hL)
    | some i => rfl

/-- Witness for C8 at the entry name `a.HEIC`. -/
theorem accepted_names_have_dot_witness :
    has_heic_extension "a.HEIC".toList = true ∧
    ('.' ∈ "a.HEIC".toList ∧
    ('/' ∉ "a.HEIC".toList →
      base_name_of (input_dir ++ '/' :: "a.HEIC".toList) = "a.HEIC".toList ∧
      (lastIdx '.' (base_name_of (input_dir ++ '/' :: "a.HEIC".toList))).isSome = true ∧
      (output_filename (input_dir ++ '/' :: "a.HEIC".toList) "output".toList).isSome = true)) :=
  ⟨by decide, accepted_names_have_dot "a.HEIC".toList "output".toList (by decide)⟩

theorem filterMap_stepRank_scanlines (n : Nat) :
    (scanlines n).filterMap stepRank = (List.range n).map (fun _ => 5) := by
  rw [scanlines, List.filterMap_map]
  have hc : (stepRank ∘ ConvAction.writeScanline) = some ∘ (fun _ => (5 : Nat)) := by
    funext r3
    rfl
  rw [hc, List.filterMap_eq_map]

theorem filterMap_releaseOf_scanlines (n : Nat) :
    (scanlines n).filterMap releaseOf = [] := by
  rw [scanlines, List.filterMap_map, List.filterMap_eq_nil_iff]
  intro a _
  rfl

set_option maxHeartbeats 1000000 in
/-- C1: for a defined conversion run under a valid quality, the result is 1
exactly when all five fallible steps succeed (the scanline and finish-compress
steps have no failure path in the code: `jpeg_std_error` aborts the process
instead of returning, so once reached they always complete), and when the
first failure is at step rank `j` the result is 0 and the trace contains no
step action of rank greater than `j` — no later step is executed. -/
theorem conv_success_iff (env : ConvEnv) (ip od : List Char) (q : Int)
    (hq : quality_valid q = true) (r : Nat) (t : List ConvAction)
    (h : convert_heic_to_jpg env ip od q = some (r, t)) :
    (r = 1 ↔ (env.allocOk && env.readOk && env.handleOk && env.decodeOk && env.openOk) = true) ∧
    (∀ j, firstFailure env = some j → r = 0 ∧ ∀ k ∈ ranksOf t, k ≤ j) := by
  obtain ⟨a, rd, hd, de, op, ht⟩ := env
  cases a <;> cases rd <;> cases hd <;> cases de <;> cases op <;>
    cases ho : output_filename ip od <;>
    simp [convert_heic_to_jpg, cleanup_context, ho] at h <;>
    (obtain ⟨rfl, rfl⟩ := h) <;>
    refine ⟨by simp, fun j hj => ?_⟩ <;>
    simp [firstFailure] at hj <;>
    (try subst hj) <;>
    refine ⟨rfl, ?_⟩ <;>
    simp [ranksOf, stepRank, List.filterMap_append, filterMap_stepRank_scanlines]

/-- Witness trace: the run that fails at the container-read step on
`Photos/a.HEIC`. -/
def w1Trace : List ConvAction :=
  [ConvAction.createCompress, ConvAction.allocCtx,
   ConvAction.readContainer "Photos/a.HEIC".toList,
   ConvAction.logErr ("Could not read HEIC file: ".toList ++ "Photos/a.HEIC".toList),
   ConvAction.freeCtx, ConvAction.destroyCompress]

/-- The environment of `w1Trace`: only the container read fails. -/
def readFailEnv : ConvEnv := ⟨true, false, true, true, true, 0⟩

/-- Witness for C1 at the read-failure run. -/
theorem conv_success_iff_witness :
    quality_valid 85 = true ∧
    convert_heic_to_jpg readFailEnv "Photos/a.HEIC".toList "output".toList 85
      = some (0, w1Trace) ∧
    ((0 = 1 ↔ (readFailEnv.allocOk && readFailEnv.readOk && readFailEnv.handleOk &&
        readFailEnv.decodeOk && readFailEnv.openOk) = true) ∧
     (∀ j, firstFailure readFailEnv = some j → 0 = 0 ∧ ∀ k ∈ ranksOf w1Trace, k ≤ j)) :=
  ⟨by decide, by decide,
    conv_success_iff readFailEnv "Photos/a.HEIC".toList "output".toList 85
      (by decide) 0 w1Trace (by decide)⟩

set_option maxHeartbeats 1000000 in
/-- C9: a conversion run that fails at allocation, container read, handle
lookup or decode returns 0 and its trace contains no `fopen` of any output
path (the output file is opened only after a successful decode, so no file in
the output directory is opened, created, or modified). -/
theorem conv_no_output_before_decode (env : ConvEnv) (ip od : List Char) (q : Int)
    (r : Nat) (t : List ConvAction)
    (h : convert_heic_to_jpg env ip od q = some (r, t))
    (hf : (env.allocOk && env.readOk && env.handleOk && env.decodeOk) = false) :
    r = 0 ∧ ∀ p, ConvAction.openOutput p ∉ t := by
  obtain ⟨a, rd, hd, de, op, ht⟩ := env
  cases a <;> cases rd <;> cases hd <;> cases de <;> cases op <;>
    cases ho : output_filename ip od <;>
    simp [convert_heic_to_jpg, cleanup_context, ho] at h hf <;>
    (obtain ⟨rfl, rfl⟩ := h) <;>
    simp

/-- Witness for C9 at the read-failure run. -/
theorem conv_no_output_before_decode_witness :
    convert_heic_to_jpg readFailEnv "Photos/a.HEIC".toList "output".toList 85
      = some (0, w1Trace) ∧
    (readFailEnv.allocOk && readFailEnv.readOk && readFailEnv.handleOk &&
      readFailEnv.decodeOk) = false ∧
    (0 = 0 ∧ ∀ p, ConvAction.openOutput p ∉ w1Trace) :=
  ⟨by decide, by decide,
    conv_no_output_before_decode readFailEnv "Photos/a.HEIC".toList "output".toList 85
      0 w1Trace (by decide) (by decide)⟩

set_option maxHeartbeats 1000000 in
/-- C7: on every defined exit path the sequence of release actions in the
trace is exactly the reverse of the acquisition sequence, so each acquired
resource is released exactly once, in reverse acquisition order, and no
resource that was never acquired is released. -/
theorem conv_release_discipline (env : ConvEnv) (ip od : List Char) (q : Int)
    (r : Nat) (t : List ConvAction)
    (h : convert_heic_to_jpg env ip od q = some (r, t)) :
    t.filterMap releaseOf = (acquiredResources env).reverse ∧
    ∀ res : Resource, (t.filterMap releaseOf).count res
      = if res ∈ acquiredResources env then 1 else 0 := by
  obtain ⟨a, rd, hd, de, op, ht⟩ := env
  cases a <;> cases rd <;> cases hd <;> cases de <;> cases op <;>
    cases ho : output_filename ip od <;>
    simp [convert_heic_to_jpg, cleanup_context, ho] at h <;>
    (obtain ⟨rfl, rfl⟩ := h) <;>
    refine ⟨by simp [releaseOf, acquiredResources, List.filterMap_append,
      filterMap_releaseOf_scanlines], fun res => ?_⟩ <;>
    cases res <;>
    simp [releaseOf, acquiredResources, List.filterMap_append, filterMap_releaseOf_scanlines,
      List.count_cons, List.count_nil]

/-- Witness for C7 at the read-failure run. -/
theorem conv_release_discipline_witness :
    convert_heic_to_jpg readFailEnv "Photos/a.HEIC".toList "output".toList 85
      = some (0, w1Trace) ∧
    (w1Trace.filterMap releaseOf = (acquiredResources readFailEnv).reverse ∧
     ∀ res : Resource, (w1Trace.filterMap releaseOf).count res
       = if res ∈ acquiredResources readFailEnv then 1 else 0) :=
  ⟨by decide,
    conv_release_discipline readFailEnv "Photos/a.HEIC".toList "output".toList 85
      0 w1Trace (by decide)⟩

theorem mainRun_invalid_none (env : MainEnv) (hq : env.qualityInput = none) :
    mainRun env = some ⟨1, [promptMsg], [invalidQualityMsg], false, false, [], 0⟩ := by
  simp [mainRun, hq]

theorem mainRun_invalid_quality (env : MainEnv) (q : Int)
    (hq : env.qualityInput = some q) (hqv : quality_valid q = false) :
    mainRun env = some ⟨1, [promptMsg], [invalidQualityMsg], false, false, [], 0⟩ := by
  simp [mainRun, hq, hqv]

theorem mainRun_mkdir_fail (env : MainEnv) (q : Int)
    (hq : env.qualityInput = some q) (hqv : quality_valid q = true)
    (hd : (ensure_directory env.outDirStat output_dir).1 = false) :
    mainRun env = some ⟨1, [promptMsg, usingQualityMsg q], [mkdirFailMsg], false, false, [], 0⟩ := by
  simp [mainRun, hq, hqv, hd]

theorem mainRun_opendir_fail (env : MainEnv) (q : Int)
    (hq : env.qualityInput = some q) (hqv : quality_valid q = true)
    (hd : (ensure_directory env.outDirStat output_dir).1 = true)
    (hop : env.opendirOk = false) :
    mainRun env = some ⟨1, [promptMsg, usingQualityMsg q], [opendirFailMsg], true, false, [], 0⟩ := by
  simp [mainRun, hq, hqv, hd, hop]

theorem mainRun_scan (env : MainEnv) (q : Int) (n : Nat)
    (calls errs : List (List Char))
    (hq : env.qualityInput = some q) (hqv : quality_valid q = true)
    (hd : (ensure_directory env.outDirStat output_dir).1 = true)
    (hop : env.opendirOk = true)
    (hr : run_jobs env.convEnv q env.entries = some (n, calls, errs)) :
    mainRun env = some ⟨if env.closedirOk then 0 else 1,
      [promptMsg, usingQualityMsg q, convertingMsg,
        if n = 0 then noHeicMsg else convertedMsg n],
      errs, true, true, calls, n⟩ := by
  simp [mainRun, hq, hqv, hd, hop, hr]

theorem mainRun_cases (env : MainEnv) (res : MainResult) (h : mainRun env = some res) :
    (env.qualityInput = none ∧ res = ⟨1, [promptMsg], [invalidQualityMsg], false, false, [], 0⟩) ∨
    (∃ q, env.qualityInput = some q ∧ quality_valid q = false ∧
      res = ⟨1, [promptMsg], [invalidQualityMsg], false, false, [], 0⟩) ∨
    (∃ q, env.qualityInput = some q ∧ quality_valid q = true ∧
      (ensure_directory env.outDirStat output_dir).1 = false ∧
      res = ⟨1, [promptMsg, usingQualityMsg q], [mkdirFailMsg], false, false, [], 0⟩) ∨
    (∃ q, env.qualityInput = some q ∧ quality_valid q = true ∧
      (ensure_directory env.outDirStat output_dir).1 = true ∧ env.opendirOk = false ∧
      res = ⟨1, [promptMsg, usingQualityMsg q], [opendirFailMsg], true, false, [], 0⟩) ∨
    (∃ q n calls errs, env.qualityInput = some q ∧ quality_valid q = true ∧
      (ensure_directory env.outDirStat output_dir).1 = true ∧ env.opendirOk = true ∧
      run_jobs env.convEnv q env.entries = some (n, calls, errs) ∧
      res = ⟨if env.closedirOk then 0 else 1,
        [promptMsg, usingQualityMsg q, convertingMsg,
          if n = 0 then noHeicMsg else convertedMsg n],
        errs, true, true, calls, n⟩) := by
  cases hq : env.qualityInput with
  | none =>
    left
    have := mainRun_invalid_none env hq
    rw [this] at h
    exact ⟨rfl, (Option.some.inj h).symm⟩
  | some q =>
    cases hqv : quality_valid q with
    | false =>
      right; left
      have := mainRun_invalid_quality env q hq hqv
      rw [this] at h
      exact ⟨q, rfl, hqv, (Option.some.inj h).symm⟩
    | true =>
      cases hd : (ensure_directory env.outDirStat output_dir).1 with
      | false =>
        right; right; left
        have := mainRun_mkdir_fail env q hq hqv hd
        rw [this] at h
        exact ⟨q, rfl, hqv, rfl, (Option.some.inj h).symm⟩
      | true =>
        cases hop : env.opendirOk with
        | false =>
          right; right; right; left
          have := mainRun_opendir_fail env q hq hqv hd hop
          rw [this] at h
          exact ⟨q, rfl, hqv, rfl, rfl, (Option.some.inj h).symm⟩
        | true =>
          right; right; right; right
          cases hr : run_jobs env.convEnv q env.entries with
          | none =>
            rw [mainRun, hq] at h
            simp [hqv, hd, hop, hr] at h
          | some p =>
            obtain ⟨n, calls, errs⟩ := p
            have := mainRun_scan env q n calls errs hq hqv hd hop hr
            rw [this] at h
            exact ⟨q, n, calls, errs, rfl, hqv, rfl, rfl, hr, (Option.some.inj h).symm⟩

/-- The directory of the C2 counterexample: one matching entry whose
conversion fails at the container read. -/
def c2Env : MainEnv :=
  ⟨some 85, ⟨true, FileType.directory, true⟩, true, ["a.HEIC".toList],
    fun _ => readFailEnv, true⟩

/-- C2 counterexample: one directory entry matches the `.HEIC` filter, yet the
summary printed is the no-files message, because the single conversion failed:
the summary condition is zero successes, not zero matches. -/
theorem summary_cex :
    (c2Env.entries.filter has_heic_extension).length = 1 ∧
    (mainRun c2Env).map MainResult.stdout
      = some [promptMsg, usingQualityMsg 85, convertingMsg, noHeicMsg] := by
  decide

/-- C2 (amended): after the batch loop the summary line is the no-files
message exactly when `files_processed` — the number of convert calls that
returned success — is zero (even if matching entries existed), and otherwise
the converted-count message carrying that number. -/
theorem summary_line (env : MainEnv) (q : Int) (res : MainResult)
    (hq : env.qualityInput = some q)
    (h : mainRun env = some res) (hscan : res.dirScanned = true) :
    res.filesProcessed
      = (env.entries.filter has_heic_extension).countP (convOk env.convEnv q) ∧
    res.stdout = [promptMsg, usingQualityMsg q, convertingMsg,
      if res.filesProcessed = 0 then noHeicMsg else convertedMsg res.filesProcessed] := by
  rcases mainRun_cases env res h with
    ⟨hn, rfl⟩ | ⟨q2, hq2, hqv2, rfl⟩ | ⟨q2, hq2, hqv2, hd2, rfl⟩ |
    ⟨q2, hq2, hqv2, hd2, hop2, rfl⟩ | ⟨q2, n, calls, errs, hq2, hqv2, hd2, hop2, hr2, rfl⟩
  · simp at hscan
  · simp at hscan
  · simp at hscan
  · simp at hscan
  · rw [hq] at hq2
    obtain rfl := Option.some.inj hq2
    obtain ⟨hn, -⟩ := run_jobs_spec env.convEnv q env.entries n calls errs hr2
    subst hn
    exact ⟨rfl, rfl⟩

/-- The environment of the C2 witness: one matching entry, all calls succeed. -/
def w2Env : MainEnv :=
  ⟨some 85, ⟨true, FileType.directory, true⟩, true, ["a.HEIC".toList], allOk, true⟩

/-- The run result of the C2 witness. -/
def w2Res : MainResult :=
  ⟨0, [promptMsg, usingQualityMsg 85, convertingMsg, convertedMsg 1], [],
   true, true, ["Photos/a.HEIC".toList], 1⟩

/-- Witness for C2 (amended) at a successful one-file run. -/
theorem summary_line_witness :
    mainRun w2Env = some w2Res ∧
    (w2Res.filesProcessed
       = (w2Env.entries.filter has_heic_extension).countP (convOk w2Env.convEnv 85) ∧
     w2Res.stdout = [promptMsg, usingQualityMsg 85, convertingMsg,
       if w2Res.filesProcessed = 0 then noHeicMsg else convertedMsg w2Res.filesProcessed]) :=
  ⟨by decide, summary_line w2Env 85 w2Res (by decide) (by decide) (by decide)⟩

/-- The environment of the C3 counterexample: everything succeeds except the
final `closedir`. -/
def c3Env : MainEnv :=
  ⟨some 80, ⟨true, FileType.directory, true⟩, true, [], allOk, false⟩

/-- C3 counterexample: quality 80 is valid, the output directory exists and
the input directory opens, yet the exit status is 1 because `closedir`
failed — a fourth exit-1 cause the claim does not list. -/
theorem exit_code_cex :
    (mainRun c3Env).map MainResult.exitCode = some 1 ∧
    c3Env.qualityInput = some 80 ∧ quality_valid 80 = true ∧
    (ensure_directory c3Env.outDirStat output_dir).1 = true ∧
    c3Env.opendirOk = true := by
  decide

/-- C3 (amended): the exit status is 0 or 1; it is 0 exactly when the quality
parsed and was in range, the output directory was ensured, the input directory
opened, and the final `closedir` succeeded (so zero conversions still exit 0);
and on missing or out-of-range quality the run exits 1 without calling
`opendir` and without scanning the directory. -/
theorem exit_code_spec (env : MainEnv) (res : MainResult)
    (h : mainRun env = some res) :
    (res.exitCode = 0 ∨ res.exitCode = 1) ∧
    (res.exitCode = 0 ↔
      ((∃ q, env.qualityInput = some q ∧ quality_valid q = true) ∧
       (ensure_directory env.outDirStat output_dir).1 = true ∧
       env.opendirOk = true ∧ env.closedirOk = true)) ∧
    ((env.qualityInput = none ∨
        (∃ q, env.qualityInput = some q ∧ quality_valid q = false)) →
      res.exitCode = 1 ∧ res.opendirCalled = false ∧ res.dirScanned = false) := by
  rcases mainRun_cases env res h with
    ⟨hn, rfl⟩ | ⟨q2, hq2, hqv2, rfl⟩ | ⟨q2, hq2, hqv2, hd2, rfl⟩ |
    ⟨q2, hq2, hqv2, hd2, hop2, rfl⟩ | ⟨q2, n, calls, errs, hq2, hqv2, hd2, hop2, hr2, rfl⟩
  · refine ⟨Or.inr rfl, ?_, fun _ => ⟨rfl, rfl, rfl⟩⟩
    simp only [MainResult.exitCode]
    constructor
    · intro h1
      exact absurd h1 (by decide)
    · rintro ⟨⟨q, hq, -⟩, -⟩
      rw [hn] at hq
      exact absurd hq (by simp)
  · refine ⟨Or.inr rfl, ?_, fun _ => ⟨rfl, rfl, rfl⟩⟩
    constructor
    · intro h1
      exact absurd h1 (by decide)
    · rintro ⟨⟨q, hq, hqv⟩, -⟩
      rw [hq2] at hq
      obtain rfl := Option.some.inj hq
      rw [hqv2] at hqv
      exact absurd hqv (by decide)
  · refine ⟨Or.inr rfl, ?_, ?_⟩
    · constructor
      · intro h1
        exact absurd h1 (by simp)
      · rintro ⟨-, hd, -⟩
        rw [hd2] at hd
        exact absurd hd (by decide)
    · rintro (hnone | ⟨q, hq, hqv⟩)
      · rw [hq2] at hnone
        exact absurd hnone (by simp)
      · rw [hq2] at hq
        obtain rfl := Option.some.inj hq
        rw [hqv2] at hqv
        exact absurd hqv (by decide)
  · refine ⟨Or.inr rfl, ?_, ?_⟩
    · constructor
      · intro h1
        exact absurd h1 (by simp)
      · rintro ⟨-, -, hop, -⟩
        rw [hop2] at hop
        exact absurd hop (by decide)
    · rintro (hnone | ⟨q, hq, hqv⟩)
      · rw [hq2] at hnone
        exact absurd hnone (by simp)
      · rw [hq2] at hq
        obtain rfl := Option.some.inj hq
        rw [hqv2] at hqv
        exact absurd hqv (by decide)
  · refine ⟨?_, ?_, ?_⟩
    · cases hcl : env.closedirOk
      · exact Or.inr (by simp [hcl])
      · exact Or.inl (by simp [hcl])
    · constructor
      · intro h1
        cases hcb : env.closedirOk with
        | false =>
          rw [hcb] at h1
          simp at h1
        | true => exact ⟨⟨q2, hq2, hqv2⟩, hd2, hop2, rfl⟩
      · rintro ⟨-, -, -, hcl⟩
        rw [hcl]
        simp
    · rintro (hnone | ⟨q, hq, hqv⟩)
      · rw [hq2] at hnone
        exact absurd hnone (by simp)
      · rw [hq2] at hq
        obtain rfl := Option.some.inj hq
        rw [hqv2] at hqv
        exact absurd hqv (by decide)

/-- The environment of the C3 witness: a clean run over an empty listing. -/
def w3Env : MainEnv :=
  ⟨some 85, ⟨true, FileType.directory, true⟩, true, [], allOk, true⟩

/-- The run result of the C3 witness: normal completion, zero conversions. -/
def w3Res : MainResult :=
  ⟨0, [promptMsg, usingQualityMsg 85, convertingMsg, noHeicMsg], [], true, true, [], 0⟩

/-- Witness for C3 (amended): exit status 0 on a clean zero-conversion run. -/
theorem exit_code_spec_witness :
    mainRun w3Env = some w3Res ∧
    ((w3Res.exitCode = 0 ∨ w3Res.exitCode = 1) ∧
     (w3Res.exitCode = 0 ↔
       ((∃ q, w3Env.qualityInput = some q ∧ quality_valid q = true) ∧
        (ensure_directory w3Env.outDirStat output_dir).1 = true ∧
        w3Env.opendirOk = true ∧ w3Env.closedirOk = true)) ∧
     ((w3Env.qualityInput = none ∨
         (∃ q, w3Env.qualityInput = some q ∧ quality_valid q = false)) →
       w3Res.exitCode = 1 ∧ w3Res.opendirCalled = false ∧ w3Res.dirScanned = false)) :=
  ⟨by decide, exit_code_spec w3Env w3Res (by decide)⟩

/-- C4 counterexample: a job that fails at the primary-image-handle lookup
writes exactly one diagnostic, a fixed message that does not contain the
offending path. -/
theorem conv_diag_cex :
    (convert_heic_to_jpg ⟨true, true, false, true, true, 0⟩ "Photos/x.HEIC".toList
        "output".toList 85).map (fun p => errLines p.2)
      = some ["Could not get primary image handle".toList] ∧
    containsSub "Photos/x.HEIC".toList
      "Could not get primary image handle".toList = false := by
  decide

/-- C4 (amended): every per-job failure writes exactly one diagnostic line to
the error stream and the job returns 0 (abandoned); the container-read
diagnostic contains the offending input path and the output-open diagnostic
contains the offending output path, while the handle-lookup and decode
diagnostics are fixed messages that carry no path; and the driver loop passes
every matching entry to the converter, so no job failure interrupts it. -/
theorem conv_diag_amended (env : ConvEnv) (ip od : List Char) (q : Int)
    (r : Nat) (t : List ConvAction)
    (h : convert_heic_to_jpg env ip od q = some (r, t)) :
    (env.allocOk = true → env.readOk = false →
      r = 0 ∧ errLines t = [("Could not read HEIC file: ".toList ++ ip)] ∧
      containsSub ip ("Could not read HEIC file: ".toList ++ ip) = true) ∧
    (env.allocOk = true → env.readOk = true → env.handleOk = false →
      r = 0 ∧ errLines t = ["Could not get primary image handle".toList]) ∧
    (env.allocOk = true → env.readOk = true → env.handleOk = true → env.decodeOk = false →
      r = 0 ∧ errLines t = ["Could not decode image".toList]) ∧
    (∀ outName, env.allocOk = true → env.readOk = true → env.handleOk = true →
      env.decodeOk = true → env.openOk = false → output_filename ip od = some outName →
      r = 0 ∧ errLines t = [("Could not create output file: ".toList ++ outName)] ∧
      containsSub outName ("Could not create output file: ".toList ++ outName) = true) ∧
    (∀ ce names n calls errs, run_jobs ce q names = some (n, calls, errs) →
      calls = (names.filter has_heic_extension).map (fun nm => input_dir ++ '/' :: nm)) := by
  refine ⟨fun ha hrd => ?_, fun ha hrd hhd => ?_, fun ha hrd hhd hde => ?_,
    fun outName ha hrd hhd hde hop ho => ?_,
    fun ce names n calls errs hr => (run_jobs_spec ce q names n calls errs hr).2⟩
  · simp [convert_heic_to_jpg, cleanup_context, ha, hrd] at h
    obtain ⟨rfl, rfl⟩ := h
    exact ⟨rfl, rfl, containsSub_append_left ip _⟩
  · simp [convert_heic_to_jpg, cleanup_context, ha, hrd, hhd] at h
    obtain ⟨rfl, rfl⟩ := h
    exact ⟨rfl, rfl⟩
  · simp [convert_heic_to_jpg, cleanup_context, ha, hrd, hhd, hde] at h
    obtain ⟨rfl, rfl⟩ := h
    exact ⟨rfl, rfl⟩
  · simp [convert_heic_to_jpg, cleanup_context, ha, hrd, hhd, hde, hop, ho] at h
    obtain ⟨rfl, rfl⟩ := h
    exact ⟨rfl, rfl, containsSub_append_left outName _⟩

/-- Witness for C4 (amended) at the read-failure run. -/
theorem conv_diag_amended_witness :
    convert_heic_to_jpg readFailEnv "Photos/a.HEIC".toList "output".toList 85
      = some (0, w1Trace) ∧
    ((readFailEnv.allocOk = true → readFailEnv.readOk = false →
      0 = 0 ∧ errLines w1Trace
          = [("Could not read HEIC file: ".toList ++ "Photos/a.HEIC".toList)] ∧
      containsSub "Photos/a.HEIC".toList
          ("Could not read HEIC file: ".toList ++ "Photos/a.HEIC".toList) = true) ∧
     (readFailEnv.allocOk = true → readFailEnv.readOk = true →
        readFailEnv.handleOk = false →
      0 = 0 ∧ errLines w1Trace = ["Could not get primary image handle".toList]) ∧
     (readFailEnv.allocOk = true → readFailEnv.readOk = true →
        readFailEnv.handleOk = true → readFailEnv.decodeOk = false →
      0 = 0 ∧ errLines w1Trace = ["Could not decode image".toList]) ∧
     (∀ outName, readFailEnv.allocOk = true → readFailEnv.readOk = true →
        readFailEnv.handleOk = true → readFailEnv.decodeOk = true →
        readFailEnv.openOk = false →
        output_filename "Photos/a.HEIC".toList "output".toList = some outName →
      0 = 0 ∧ errLines w1Trace = [("Could not create output file: ".toList ++ outName)] ∧
      containsSub outName ("Could not create output file: ".toList ++ outName) = true) ∧
     (∀ ce names n calls errs, run_jobs ce 85 names = some (n, calls, errs) →
      calls = (names.filter has_heic_extension).map (fun nm => input_dir ++ '/' :: nm))) :=
  ⟨by decide, conv_diag_amended readFailEnv "Photos/a.HEIC".toList "output".toList 85
    0 w1Trace (by decide)⟩

/-- C10: `ensure_directory` returns success whenever `stat` succeeds, whatever
kind of entry `stat` found — a regular file included — and attempts
`mkdir(path, 0755)` exactly when `stat` fails; consequently a run with a valid
quality whose output-directory `stat` succeeds proceeds past output-directory
setup to `opendir`. -/
theorem ensure_directory_stat_only (ft : FileType) (mk : Bool) (p : List Char)
    (env : MainEnv) (res : MainResult) (q : Int)
    (hm : mainRun env = some res) (hq : env.qualityInput = some q)
    (hqv : quality_valid q = true) (hst : env.outDirStat.statOk = true) :
    ensure_directory ⟨true, ft, mk⟩ p = (true, [DirAction.statCall p]) ∧
    ensure_directory ⟨false, ft, mk⟩ p
      = (mk, [DirAction.statCall p, DirAction.mkdirCall p 0o755]) ∧
    res.opendirCalled = true := by
  refine ⟨by simp [ensure_directory], by simp [ensure_directory], ?_⟩
  have hd : (ensure_directory env.outDirStat output_dir).1 = true := by
    simp [ensure_directory, hst]
  rcases mainRun_cases env res hm with
    ⟨hn, rfl⟩ | ⟨q2, hq2, hqv2, rfl⟩ | ⟨q2, hq2, hqv2, hd2, rfl⟩ |
    ⟨q2, hq2, hqv2, hd2, hop2, rfl⟩ | ⟨q2, n, calls, errs, hq2, hqv2, hd2, hop2, hr2, rfl⟩
  · rw [hq] at hn
    exact absurd hn (by simp)
  · rw [hq] at hq2
    obtain rfl := Option.some.inj hq2
    rw [hqv] at hqv2
    exact absurd hqv2 (by decide)
  · rw [hd] at hd2
    exact absurd hd2 (by decide)
  · rfl
  · rfl

/-- The environment of the C10 witness: the `stat` of `output` succeeds but
finds a regular file, and `mkdir` would fail if attempted. -/
def w10Env : MainEnv :=
  ⟨some 85, ⟨true, FileType.regular, false⟩, true, [], allOk, true⟩

/-- The run result of the C10 witness. -/
def w10Res : MainResult :=
  ⟨0, [promptMsg, usingQualityMsg 85, convertingMsg, noHeicMsg], [], true, true, [], 0⟩

/-- Witness for C10: the run proceeds to `opendir` although the `stat` of the
output path found a regular file. -/
theorem ensure_directory_stat_only_witness :
    mainRun w10Env = some w10Res ∧
    quality_valid 85 = true ∧ w10Env.outDirStat.statOk = true ∧
    (ensure_directory ⟨true, FileType.regular, false⟩ output_dir
       = (true, [DirAction.statCall output_dir]) ∧
     ensure_directory ⟨false, FileType.regular, false⟩ output_dir
       = (false, [DirAction.statCall output_dir, DirAction.mkdirCall output_dir 0o755]) ∧
     w10Res.opendirCalled = true) :=
  ⟨by decide, by decide, by decide,
    ensure_directory_stat_only FileType.regular false output_dir w10Env w10Res 85
      (by decide) (by decide) (by decide) (by decide)⟩
